import Mathlib

/-!
Verification of the `cgpt` CLI core (`src/cgpt/api.py`, `src/cgpt/config.py`).

The Python source is shallowly embedded: JSON values become the inductive
`JVal`, Python `dict.get` becomes `dget`/`pyDictGet`, Python truthiness
becomes `jtruthy`, and functions that can raise `AttributeError` return
`Except Unit _`.  `json.loads` is modelled by the executable parser `jparse`
(JSON numbers are kept as their signed mantissa; only their truthiness and
non-string-ness are ever inspected by the embedded code).
-/

set_option maxRecDepth 4096

/-! ## Python string primitives -/

/-- The set of characters stripped by Python `str.strip()` (Unicode
whitespace as recognized by CPython). -/
def pyIsSpace (c : Char) : Bool :=
  let n := c.toNat
  (9 ≤ n && n ≤ 13) || (28 ≤ n && n ≤ 32) || n == 0x85 || n == 0xA0 ||
  n == 0x1680 || (0x2000 ≤ n && n ≤ 0x200A) || n == 0x2028 || n == 0x2029 ||
  n == 0x202F || n == 0x205F || n == 0x3000

/-- Python `str.strip()` on a character list. -/
def pyStripL (l : List Char) : List Char :=
  ((l.dropWhile pyIsSpace).reverse.dropWhile pyIsSpace).reverse

/-- Python `str.strip()`. -/
def pyStrip (s : String) : String := ⟨pyStripL s.data⟩

/-- Python `str.lower()` (ASCII range; no character relevant to the mode
comparison lowercases into ASCII from outside it). -/
def pyLower (s : String) : String := ⟨s.data.map Char.toLower⟩

/-- Decides via `listStartsWith pre l` whether `pre` is a prefix of `l`. -/
def listStartsWith : List Char → List Char → Bool
  | [], _ => true
  | _ :: _, [] => false
  | p :: ps, c :: cs => p == c && listStartsWith ps cs

/-- Python `str.startswith`. -/
def pyStartsWith (s pre : String) : Bool := listStartsWith pre.data s.data

/-- Python `str.endswith`. -/
def pyEndsWith (s suffix : String) : Bool :=
  listStartsWith suffix.data.reverse s.data.reverse

/-! ## JSON values (Python objects produced by `json.loads`) -/

/-- A decoded JSON value.  Python `None` (both JSON `null` and the default
of `dict.get`) is `JVal.null`.  Numbers are kept as their signed mantissa:
the embedded code only ever tests numbers for truthiness. -/
inductive JVal where
  | null
  | bool (b : Bool)
  | num (m : Int)
  | str (s : String)
  | arr (elems : List JVal)
  | obj (fields : List (String × JVal))

/-- Lookup in a JSON object; a later duplicate key shadows an earlier one,
as in a Python dict built by `json.loads`. -/
def jget : List (String × JVal) → String → Option JVal
  | [], _ => none
  | (k, v) :: rest, key =>
    match jget rest key with
    | some r => some r
    | none => if k == key then some v else none

/-- Python `d.get(key)` on a known dict: missing keys give `None`. -/
def dget (fields : List (String × JVal)) (key : String) : JVal :=
  (jget fields key).getD JVal.null

/-- Python truthiness of a JSON value. -/
def jtruthy : JVal → Bool
  | .null => false
  | .bool b => b
  | .num m => m != 0
  | .str s => !s.data.isEmpty
  | .arr es => !es.isEmpty
  | .obj fs => !fs.isEmpty

/-- Python `x or d`. -/
def pyOrElse (v d : JVal) : JVal := if jtruthy v then v else d

/-- Python `v.get(key)` where `v` is an arbitrary value: raises
`AttributeError` (modelled as `Except.error ()`) unless `v` is a dict. -/
def pyDictGet : JVal → String → Except Unit JVal
  | .obj fs, key => .ok (dget fs key)
  | _, _ => .error ()

/-! ## `json.loads`, modelled as an executable recursive-descent parser -/

/-- JSON inter-token whitespace. -/
def jsonWsDrop (cs : List Char) : List Char :=
  cs.dropWhile fun c => c == ' ' || c == '\t' || c == '\n' || c == '\r'

/-- Value of one hex digit (decimal digits, then the lowercase and the
uppercase letter ranges, by code point). -/
def hexDigitVal (c : Char) : Option Nat :=
  let n := c.toNat
  if 48 ≤ n && n ≤ 57 then some (n - 48)
  else if 97 ≤ n && n ≤ 102 then some (n - 87)
  else if 65 ≤ n && n ≤ 70 then some (n - 55)
  else none

/-- Value of four hex digits. -/
def hex4 (a b c d : Char) : Option Nat :=
  match hexDigitVal a, hexDigitVal b, hexDigitVal c, hexDigitVal d with
  | some x1, some x2, some x3, some x4 =>
      some (4096 * x1 + 256 * x2 + 16 * x3 + x4)
  | _, _, _, _ => none

/-- Body of a JSON string after the opening quote: returns the decoded
characters and the remainder after the closing quote.  Control characters
must be escaped; `\uXXXX` covers non-surrogate scalars (surrogate pairs are
outside this model and rejected). -/
def jparseStrAux : List Char → Option (List Char × List Char)
  | [] => none
  | '"' :: rest => some ([], rest)
  | '\\' :: 'u' :: h1 :: h2 :: h3 :: h4 :: rest => do
      let n ← hex4 h1 h2 h3 h4
      if 0xD800 ≤ n && n ≤ 0xDFFF then none
      else
        let (l, r) ← jparseStrAux rest
        pure (Char.ofNat n :: l, r)
  | '\\' :: e :: rest => do
      let c ← match e with
        | '"' => some '"'
        | '\\' => some '\\'
        | '/' => some '/'
        | 'b' => some (Char.ofNat 8)
        | 'f' => some (Char.ofNat 12)
        | 'n' => some '\n'
        | 'r' => some '\r'
        | 't' => some '\t'
        | _ => none
      let (l, r) ← jparseStrAux rest
      pure (c :: l, r)
  | c :: rest =>
      if c.toNat < 0x20 then none
      else do
        let (l, r) ← jparseStrAux rest
        pure (c :: l, r)

/-- Splits as `List.span Char.isDigit`. -/
def spanDigits (cs : List Char) : List Char × List Char :=
  (cs.takeWhile Char.isDigit, cs.dropWhile Char.isDigit)

/-- Digits to a natural number. -/
def digitsToNat (ds : List Char) : Nat :=
  ds.foldl (fun a c => a * 10 + (c.toNat - '0'.toNat)) 0

/-- A JSON number literal (sign, integer part, optional fraction and
exponent); the resulting value records the signed mantissa. -/
def jparseNum (cs : List Char) : Option (JVal × List Char) :=
  let (neg, cs1) := match cs with
    | '-' :: r => (true, r)
    | _ => (false, cs)
  let intRes : Option (List Char × List Char) :=
    match cs1 with
    | '0' :: r => some (['0'], r)
    | c :: r => if c.isDigit then
        let (ds, r') := spanDigits r
        some (c :: ds, r')
      else none
    | [] => none
  match intRes with
  | none => none
  | some (intDs, r1) =>
    let fracRes : Option (List Char × List Char) :=
      match r1 with
      | '.' :: r2 =>
        let (ds, r3) := spanDigits r2
        if ds.isEmpty then none else some (ds, r3)
      | _ => some ([], r1)
    match fracRes with
    | none => none
    | some (fracDs, r4) =>
      let expRes : Option (List Char) :=
        match r4 with
        | 'e' :: r5 | 'E' :: r5 =>
          let r6 := match r5 with
            | '+' :: r => r
            | '-' :: r => r
            | _ => r5
          let (ds, r7) := spanDigits r6
          if ds.isEmpty then none else some r7
        | _ => some r4
      match expRes with
      | none => none
      | some rest =>
        let m : Nat := digitsToNat (intDs ++ fracDs)
        some (.num (if neg then -(m : Int) else (m : Int)), rest)

mutual

/-- One JSON value (fuel-indexed; fuel strictly above the input length
always suffices).  CPython's `json.loads` additionally accepts the
non-standard literals `NaN`, `Infinity` and `-Infinity` as truthy,
non-string floats; a nonzero mantissa stands in for them, since the
embedded code never inspects a number beyond truthiness. -/
def jparseVal : Nat → List Char → Option (JVal × List Char)
  | 0, _ => none
  | fuel + 1, cs =>
    match jsonWsDrop cs with
    | 't' :: 'r' :: 'u' :: 'e' :: rest => some (.bool true, rest)
    | 'f' :: 'a' :: 'l' :: 's' :: 'e' :: rest => some (.bool false, rest)
    | 'n' :: 'u' :: 'l' :: 'l' :: rest => some (.null, rest)
    | '"' :: rest => (jparseStrAux rest).map fun (l, r) => (JVal.str ⟨l⟩, r)
    | '[' :: rest =>
      (match jsonWsDrop rest with
       | ']' :: r => some (.arr [], r)
       | other => (jparseArrTail fuel other).map fun (es, r) => (JVal.arr es, r))
    | '{' :: rest =>
      (match jsonWsDrop rest with
       | '}' :: r => some (.obj [], r)
       | other => (jparseObjTail fuel other).map fun (fs, r) => (JVal.obj fs, r))
    | 'N' :: 'a' :: 'N' :: rest => some (.num 1, rest)
    | 'I' :: 'n' :: 'f' :: 'i' :: 'n' :: 'i' :: 't' :: 'y' :: rest =>
      some (.num 1, rest)
    | '-' :: 'I' :: 'n' :: 'f' :: 'i' :: 'n' :: 'i' :: 't' :: 'y' :: rest =>
      some (.num (-1), rest)
    | other => jparseNum other

/-- Non-empty array tail: one value, then `,`-separated values until `]`. -/
def jparseArrTail : Nat → List Char → Option (List JVal × List Char)
  | 0, _ => none
  | fuel + 1, cs => do
    let (v, r1) ← jparseVal fuel cs
    match jsonWsDrop r1 with
    | ']' :: r2 => pure ([v], r2)
    | ',' :: r2 => do
        let (es, r3) ← jparseArrTail fuel r2
        pure (v :: es, r3)
    | _ => none

/-- Non-empty object tail: `"key": value` pairs until `}`. -/
def jparseObjTail : Nat → List Char → Option (List (String × JVal) × List Char)
  | 0, _ => none
  | fuel + 1, cs =>
    match jsonWsDrop cs with
    | '"' :: r0 => do
      let (k, r1) ← jparseStrAux r0
      match jsonWsDrop r1 with
      | ':' :: r2 => do
        let (v, r3) ← jparseVal fuel r2
        match jsonWsDrop r3 with
        | '}' :: r4 => pure ([(⟨k⟩, v)], r4)
        | ',' :: r4 => do
            let (fs, r5) ← jparseObjTail fuel r4
            pure ((⟨k⟩, v) :: fs, r5)
        | _ => none
      | _ => none
    | _ => none

end

/-- Python `json.loads`: the whole input must be one JSON document. -/
def jparse (s : String) : Option JVal :=
  match jparseVal (s.data.length + 1) s.data with
  | some (v, rest) => if (jsonWsDrop rest).isEmpty then some v else none
  | none => none

/-! ## Text extraction (`src/cgpt/api.py`) -/

/-- Embeds `_extract_stream_delta`: best-effort delta extraction for streaming
events.  Tries the Responses-style delta, then the Chat-style delta, then
the flat `output_text` field.  `Except.error ()` marks the `AttributeError`
raised when `.get` is called on a non-dict. -/
def extract_stream_delta : JVal → Except Unit (Option String)
  | .obj fs =>
      let first : Option String :=
        match dget fs "type" with
        | .str t =>
          if pyEndsWith t "output_text.delta" then
            match dget fs "delta" with
            | .str d => some d
            | _ => none
          else none
        | _ => none
      match first with
      | some d => .ok (some d)
      | none =>
        let viaChoices : Except Unit (Option String) :=
          match dget fs "choices" with
          | .arr (c0 :: _) => do
              let dRaw ← pyDictGet c0 "delta"
              let content ← pyDictGet (pyOrElse dRaw (.obj [])) "content"
              match content with
              | .str s => pure (some s)
              | _ => pure none
          | _ => .ok none
        match viaChoices with
        | .error e => .error e
        | .ok (some s) => .ok (some s)
        | .ok none =>
          match dget fs "output_text" with
          | .str s => .ok (some s)
          | _ => .ok none
  | _ => .error ()

/-- Embeds `_extract_responses_text`: identical to `_extract_stream_delta` except
that the flat fallback reads the key `"output.text"` (sic, with a dot). -/
def extract_responses_text : JVal → Except Unit (Option String)
  | .obj fs =>
      let first : Option String :=
        match dget fs "type" with
        | .str t =>
          if pyEndsWith t "output_text.delta" then
            match dget fs "delta" with
            | .str d => some d
            | _ => none
          else none
        | _ => none
      match first with
      | some d => .ok (some d)
      | none =>
        let viaChoices : Except Unit (Option String) :=
          match dget fs "choices" with
          | .arr (c0 :: _) => do
              let dRaw ← pyDictGet c0 "delta"
              let content ← pyDictGet (pyOrElse dRaw (.obj [])) "content"
              match content with
              | .str s => pure (some s)
              | _ => pure none
          | _ => .ok none
        match viaChoices with
        | .error e => .error e
        | .ok (some s) => .ok (some s)
        | .ok none =>
          match dget fs "output.text" with
          | .str s => .ok (some s)
          | _ => .ok none
  | _ => .error ()

/-- Embeds `_extract_chat_text`: `choices[0].message.content` if it is a string. -/
def extract_chat_text : JVal → Except Unit (Option String)
  | .obj fs =>
      match dget fs "choices" with
      | .arr (top :: _) =>
        match top with
        | .obj tfs => do
            let content ← pyDictGet (pyOrElse (dget tfs "message") (.obj [])) "content"
            match content with
            | .str s => pure (some s)
            | _ => pure none
        | _ => .ok none
      | _ => .ok none
  | _ => .error ()

/-! ## The Stream Normalizer (`ask_stream`, lines 201-217) -/

/-- One raw line after SSE handling: strip the 5-character `data:` marker
when present, then Python-strip. -/
def stripLine (raw : String) : String :=
  if pyStartsWith raw "data:" then pyStrip ⟨raw.data.drop 5⟩ else pyStrip raw

/-- The per-line loop of `ask_stream`: empty lines are skipped, `[DONE]`
stops the stream, undecodable lines are passed through, decoded events go
through `extract_stream_delta`.  Returns the yielded fragments in order and
a flag recording whether the loop raised (`AttributeError` escaping
`extract_stream_delta`, which the `try` around `json.loads` does not
catch). -/
def normalize_lines : List String → List String × Bool
  | [] => ([], false)
  | raw :: rest =>
    if raw = "" then normalize_lines rest
    else
      let line := stripLine raw
      if line = "[DONE]" then ([], false)
      else
        match jparse line with
        | none =>
          (line :: (normalize_lines rest).1, (normalize_lines rest).2)
        | some ev =>
          match extract_stream_delta ev with
          | .error _ => ([], true)
          | .ok none => normalize_lines rest
          | .ok (some d) =>
            (d :: (normalize_lines rest).1, (normalize_lines rest).2)

/-! ## Endpoint resolution, headers and payloads -/

def DEFAULT_BASE_URL : String := "https://api.openai.com/v1"

/-- Python `s.rstrip("/")`. -/
def rstripSlashes (s : String) : String :=
  ⟨(s.data.reverse.dropWhile (· == '/')).reverse⟩

/-- Computes `(base_url or DEFAULT_BASE_URL).rstrip("/")`; Python `or` treats the
empty string as falsy. -/
def endpoint_root (base_url : Option String) : String :=
  rstripSlashes (match base_url with
    | some s => if s = "" then DEFAULT_BASE_URL else s
    | none => DEFAULT_BASE_URL)

/-- Embeds `endpoint_for`. -/
def endpoint_for (mode : String) (base_url : Option String) : String :=
  let root := endpoint_root base_url
  if pyLower mode = "chat" then root ++ "/chat/completions"
  else root ++ "/responses"

/-- Embeds `auth_headers` (note the source's `Content-Type` value). -/
def auth_headers (api_key : String) : List (String × String) :=
  [("Authorization", "Bearer " ++ api_key),
   ("Content-Type", "applications/json")]

/-- The JSON payload built by `ask_once`. -/
def ask_once_payload (mode model prompt : String) : JVal :=
  if pyLower mode = "chat" then
    .obj [("model", .str model),
          ("messages", .arr [.obj [("role", .str "user"),
                                   ("content", .str prompt)]])]
  else
    .obj [("model", .str model), ("input", .str prompt)]

/-- The JSON payload built by `ask_stream` (adds `"stream": true`). -/
def ask_stream_payload (mode model prompt : String) : JVal :=
  if pyLower mode = "chat" then
    .obj [("model", .str model),
          ("messages", .arr [.obj [("role", .str "user"),
                                   ("content", .str prompt)]]),
          ("stream", .bool true)]
  else
    .obj [("model", .str model), ("input", .str prompt),
          ("stream", .bool true)]

/-- The extraction step of `ask_once` (line 141-143): the source dispatches
on the *model* string, not on the mode. -/
def ask_once_extract (model : String) (data : JVal) : Except Unit (Option String) :=
  if model = "chat" then extract_chat_text data else extract_responses_text data

/-! ## Configuration round-trip (`src/cgpt/config.py`) -/

/-- The stored configuration (`Config` dataclass). -/
structure Config where
  api_key : Option String
  base_url : Option String
  default_model : Option String
  default_mode : Option String
deriving DecidableEq

/-- Uppercase hex digit. -/
def hexDigitUpper (n : Nat) : Char :=
  if n < 10 then Char.ofNat ('0'.toNat + n) else Char.ofNat ('A'.toNat + n - 10)

/-- Python `f"{n:04X}"` for `n < 0x10000`. -/
def hex4Upper (n : Nat) : List Char :=
  [hexDigitUpper (n / 4096 % 16), hexDigitUpper (n / 256 % 16),
   hexDigitUpper (n / 16 % 16), hexDigitUpper (n % 16)]

/-- Embeds `_toml_escape`, per character: quote, backslash, the named control
escapes, `\uXXXX` for remaining characters below `0x20`, and everything
else verbatim (including `U+007F`). -/
def toml_escape_char (ch : Char) : List Char :=
  if ch = '"' then ['\\', '"']
  else if ch = '\\' then ['\\', '\\']
  else if ch = Char.ofNat 8 then ['\\', 'b']
  else if ch = '\t' then ['\\', 't']
  else if ch = '\n' then ['\\', 'n']
  else if ch = Char.ofNat 12 then ['\\', 'f']
  else if ch = '\r' then ['\\', 'r']
  else if ch.toNat < 0x20 then '\\' :: 'u' :: hex4Upper ch.toNat
  else [ch]

/-- Embeds `_toml_escape`. -/
def toml_escape (s : String) : String := ⟨(s.data.map toml_escape_char).flatten⟩

/-- One line written by `_dump_toml` for a string value. -/
def dump_line (key value : String) : List Char :=
  key.data ++ (' ' :: '=' :: ' ' :: '"' :: []) ++ (toml_escape value).data
    ++ ('"' :: '\n' :: [])

/-- The key/value pairs assembled by `save_config` (only non-`None` fields,
in source order). -/
def config_pairs (cfg : Config) : List (String × String) :=
  (match cfg.api_key with | some v => [("api_key", v)] | none => []) ++
  (match cfg.base_url with | some v => [("base_url", v)] | none => []) ++
  (match cfg.default_model with | some v => [("default_model", v)] | none => []) ++
  (match cfg.default_mode with | some v => [("default_mode", v)] | none => [])

/-- Embeds `_dump_toml` on a flat string mapping. -/
def dumpPairs (ps : List (String × String)) : List Char :=
  (ps.map fun p => dump_line p.1 p.2).flatten

/-- The text `save_config` writes for `cfg`. -/
def save_config_text (cfg : Config) : String := ⟨dumpPairs (config_pairs cfg)⟩

/-- Characters allowed unescaped in a TOML basic string (TOML v1.0:
tab, `0x20`-`0x7E`, and non-ASCII scalars; in particular `U+007F` is
rejected).  Quote and backslash are handled by the match arms before this
test is reached. -/
def tomlBasicOk (c : Char) : Bool :=
  c == '\t' || (0x20 ≤ c.toNat && c.toNat ≤ 0x7E) || 0x80 ≤ c.toNat

/-- Single-character TOML escapes. -/
def tomlEscChar : Char → Option Char
  | 'b' => some (Char.ofNat 8)
  | 't' => some '\t'
  | 'n' => some '\n'
  | 'f' => some (Char.ofNat 12)
  | 'r' => some '\r'
  | '"' => some '"'
  | '\\' => some '\\'
  | _ => none

/-- Models `tomllib`'s reading of a TOML basic string after the opening
quote: decoded characters plus the remainder after the closing quote.
Rejects characters that must be escaped (`tomlBasicOk`) and invalid
escapes. -/
def tomlBasicBody : List Char → Option (List Char × List Char)
  | [] => none
  | c :: rest =>
    if c = '"' then some ([], rest)
    else if c = '\\' then
      match rest with
      | [] => none
      | e :: rest' =>
        if e = 'u' then
          match rest' with
          | h1 :: h2 :: h3 :: h4 :: rest'' =>
            (hex4 h1 h2 h3 h4).bind fun n =>
              if 0xD800 ≤ n && n ≤ 0xDFFF then none
              else (tomlBasicBody rest'').map fun p => (Char.ofNat n :: p.1, p.2)
          | _ => none
        else
          (tomlEscChar e).bind fun ec =>
            (tomlBasicBody rest').map fun p => (ec :: p.1, p.2)
    else if tomlBasicOk c then
      (tomlBasicBody rest).map fun p => (c :: p.1, p.2)
    else none

/-- Bare-key characters. -/
def tomlKeyChar (c : Char) : Bool := c.isAlphanum || c == '_' || c == '-'

/-- Models `tomllib` on one `key = "basic string"` line (the only line
shape `_dump_toml` emits). -/
def tomlLineAux : List Char → List Char → Option (String × String)
  | _, [] => none
  | acc, c :: rest =>
    if c = ' ' then
      match rest with
      | '=' :: ' ' :: '"' :: body =>
        (match tomlBasicBody body with
         | some (content, []) =>
            if acc.isEmpty then none else some (⟨acc.reverse⟩, ⟨content⟩)
         | _ => none)
      | _ => none
    else if tomlKeyChar c then tomlLineAux (c :: acc) rest
    else none

/-- Split at newlines. -/
def splitNl : List Char → List (List Char)
  | [] => [[]]
  | c :: rest =>
    match splitNl rest with
    | [] => [[c]]
    | l :: ls => if c = '\n' then [] :: l :: ls else (c :: l) :: ls

/-- Models `tomllib.load` on the flat documents `_dump_toml` produces:
every non-blank physical line must be a `key = "basic string"` assignment;
any offending line makes the whole document fail (→ `TOMLDecodeError`). -/
def tomlParseDoc (cs : List Char) : Option (List (String × String)) :=
  ((splitNl cs).filter fun l => !l.isEmpty).mapM (tomlLineAux [])

/-- Association lookup (the parsed documents have no duplicate keys, which
`tomllib` would reject anyway). -/
def kvFind : List (String × String) → String → Option String
  | [], _ => none
  | (k, v) :: rest, key => if k = key then some v else kvFind rest key

/-- Embeds `_get_str` inside `load_config`: a present value is kept only when its
Python-strip is non-empty. -/
def load_get_str (kvs : List (String × String)) (key : String) : Option String :=
  match kvFind kvs key with
  | some v => if (pyStrip v).data.isEmpty then none else some v
  | none => none

/-- Embeds `load_config` applied to a file with the given text: a TOML decode
error degrades to the default (all-`None`) `Config`. -/
def load_config_from (text : String) : Config :=
  match tomlParseDoc text.data with
  | none => ⟨none, none, none, none⟩
  | some kvs =>
    ⟨load_get_str kvs "api_key", load_get_str kvs "base_url",
     load_get_str kvs "default_model", load_get_str kvs "default_mode"⟩

/-- Composes `save_config` with `load_config`. -/
def save_then_load (cfg : Config) : Config :=
  load_config_from (save_config_text cfg)

/-! ## Claims -/

/-- Claim C1 (code divergence): the non-streaming Responses-mode extractor
does NOT agree with the stream-delta extractor on the flat `output_text`
document: `_extract_responses_text` reads the key `"output.text"` although
its own docstring promises the `output_text` fallback, so it returns absent
where `_extract_stream_delta` returns `"whole"`. -/
theorem extract_responses_vs_stream_on_output_text :
    extract_stream_delta (JVal.obj [("output_text", JVal.str "whole")])
      = .ok (some "whole") ∧
    extract_responses_text (JVal.obj [("output_text", JVal.str "whole")])
      = .ok none :=
  ⟨rfl, rfl⟩

/-- Claim C2 (code divergence): the per-line loop of `ask_stream` is not
raise-free: on the well-formed JSON line `{"choices":[5]}` the expression
`choices[0].get("delta")` raises `AttributeError` (first component: no
fragments, second component: the raised flag). -/
theorem normalize_lines_raises_on_nonobject_choices_element :
    normalize_lines ["\x7b\"choices\":[5]\x7d"] = ([], true) :=
  rfl

/-- Claim C3 (code divergence): `ask_once` dispatches its extraction on the
*model* string, not on the mode, so a Chat-mode call with model `"gpt-4o"`
runs the Responses-mode extractor and yields absent on a Chat-shaped
document, while the Chat extractor the claim requires returns `"ans"`. -/
theorem ask_once_extract_uses_model_not_mode :
    ask_once_extract "gpt-4o"
        (JVal.obj [("choices", .arr [.obj [("message",
          .obj [("content", .str "ans")])]])]) = .ok none ∧
    extract_chat_text
        (JVal.obj [("choices", .arr [.obj [("message",
          .obj [("content", .str "ans")])]])]) = .ok (some "ans") :=
  ⟨rfl, rfl⟩

/-- Claim C6 (code divergence): the headers map `Authorization` to
`Bearer <key>` as specified, but `Content-Type` to the misspelled media
type `"applications/json"`, not `"application/json"`. -/
theorem auth_headers_content_type_mismatch :
    auth_headers "k" = [("Authorization", "Bearer k"),
                        ("Content-Type", "applications/json")] ∧
    ("applications/json" : String) ≠ "application/json" :=
  ⟨rfl, by decide⟩

/-- Claim C9: for every prompt (empty, quoted, multi-line alike) the
Chat-mode payload carries a `messages` list with exactly one user-role turn
whose content is the prompt verbatim, and the streaming payload
additionally carries `"stream": true`. -/
theorem chat_payload_single_user_message (mode model prompt : String)
    (h : pyLower mode = "chat") :
    ask_once_payload mode model prompt =
      .obj [("model", .str model),
            ("messages", .arr [.obj [("role", .str "user"),
                                     ("content", .str prompt)]])] ∧
    ask_stream_payload mode model prompt =
      .obj [("model", .str model),
            ("messages", .arr [.obj [("role", .str "user"),
                                     ("content", .str prompt)]]),
            ("stream", .bool true)] := by
  constructor
  · simp [ask_once_payload, h]
  · simp [ask_stream_payload, h]

/-- Witness for C9 at a concrete mode spelling and a prompt with embedded
quote and newline. -/
theorem chat_payload_single_user_message_witness :
    ask_once_payload "CHAT" "gpt-4o" "a\"b\nc" =
      .obj [("model", .str "gpt-4o"),
            ("messages", .arr [.obj [("role", .str "user"),
                                     ("content", .str "a\"b\nc")]])] ∧
    ask_stream_payload "CHAT" "gpt-4o" "a\"b\nc" =
      .obj [("model", .str "gpt-4o"),
            ("messages", .arr [.obj [("role", .str "user"),
                                     ("content", .str "a\"b\nc")]]),
            ("stream", .bool true)] :=
  chat_payload_single_user_message "CHAT" "gpt-4o" "a\"b\nc" (by decide)

/-- The empty line is skipped. -/
theorem normalize_lines_cons_empty (rest : List String) :
    normalize_lines ("" :: rest) = normalize_lines rest := by
  simp [normalize_lines]

/-- A line whose stripped form is the sentinel is not the empty string. -/
theorem sentinel_ne_empty {raw : String} (h : stripLine raw = "[DONE]") :
    raw ≠ "" := by
  intro h0
  subst h0
  exact absurd h (by decide)

/-- Claim C4: a sentinel line (`[DONE]`, with or without the `data:`
prefix, after stripping) yields no fragment and ends the stream: the
fragments of `xs ++ [sentinel] ++ ys` are exactly the fragments of `xs`,
whatever `ys` holds. -/
theorem normalize_lines_stops_at_done (xs ys : List String) (raw : String)
    (h : stripLine raw = "[DONE]") :
    (normalize_lines (xs ++ raw :: ys)).1 = (normalize_lines xs).1 := by
  induction xs with
  | nil =>
    have hne : raw ≠ "" := sentinel_ne_empty h
    simp [normalize_lines, hne, h]
  | cons a as ih =>
    by_cases ha : a = ""
    · subst ha
      simpa [normalize_lines_cons_empty] using ih
    · rw [List.cons_append]
      by_cases hd : stripLine a = "[DONE]"
      · simp [normalize_lines, ha, hd]
      · rcases hj : jparse (stripLine a) with _ | ev
        · simp [normalize_lines, ha, hd, hj, ih]
        · rcases he : extract_stream_delta ev with e | o
          · simp [normalize_lines, ha, hd, hj, he]
          · rcases o with _ | d
            · simp [normalize_lines, ha, hd, hj, he, ih]
            · simp [normalize_lines, ha, hd, hj, he, ih]

/-- Witness for C4: a concrete `data: [DONE]` sentinel cuts off the rest of
the stream. -/
theorem normalize_lines_stops_at_done_witness :
    (normalize_lines (["\x7b\"output_text\":\"a\"\x7d"] ++
        "data: [DONE]" :: ["\x7b\"output_text\":\"b\"\x7d"])).1 =
      (normalize_lines ["\x7b\"output_text\":\"a\"\x7d"]).1 :=
  normalize_lines_stops_at_done ["\x7b\"output_text\":\"a\"\x7d"]
    ["\x7b\"output_text\":\"b\"\x7d"] "data: [DONE]" (by decide)

/-- A line on which the per-line loop neither stops nor raises: empty, or
non-sentinel and either undecodable (pass-through) or extracted without an
`AttributeError`. -/
def lineOk (raw : String) : Bool :=
  if raw = "" then true
  else if stripLine raw = "[DONE]" then false
  else match jparse (stripLine raw) with
    | none => true
    | some ev =>
      match extract_stream_delta ev with
      | .error _ => false
      | .ok _ => true

/-- The five-shape mixed stream of §8 of the spec: a Responses-style delta,
a Chat-style delta, a flat `output_text` event and a non-JSON line,
separated by blank lines. -/
def mixedStreamLines : List String :=
  ["data: \x7b\"type\":\"response.output_text.delta\",\"delta\":\"hi\"\x7d", "",
   "\x7b\"choices\":[\x7b\"delta\":\x7b\"content\":\"yo\"\x7d\x7d]\x7d", "",
   "\x7b\"output_text\":\"whole\"\x7d", "",
   "not-json-at-all"]

/-- Claim C5: fragments appear in wire arrival order.  Concretely, the
mixed stream yields exactly `hi`, `yo`, `whole`, `not-json-at-all`, in that
order, concatenating to the expected reply; in general, processing is a
line-by-line left-to-right pass, so over any prefix of non-stopping lines
the fragment list distributes over append. -/
theorem normalize_lines_wire_order :
    ((normalize_lines mixedStreamLines).1 =
        ["hi", "yo", "whole", "not-json-at-all"] ∧
      String.join (normalize_lines mixedStreamLines).1 =
        "hi" ++ "yo" ++ "whole" ++ "not-json-at-all") ∧
    ∀ xs ys : List String, (∀ r ∈ xs, lineOk r = true) →
      (normalize_lines (xs ++ ys)).1 =
        (normalize_lines xs).1 ++ (normalize_lines ys).1 := by
  refine ⟨⟨by rfl, by rfl⟩, ?_⟩
  intro xs ys hok
  induction xs with
  | nil => simp [normalize_lines]
  | cons a as ih =>
    have hok' : ∀ r ∈ as, lineOk r = true := fun r hr => hok r (by simp [hr])
    have hoka : lineOk a = true := hok a (by simp)
    by_cases ha : a = ""
    · subst ha
      simpa [normalize_lines_cons_empty] using ih hok'
    · have hd : stripLine a ≠ "[DONE]" := by
        intro hcon
        simp [lineOk, ha, hcon] at hoka
      rw [List.cons_append]
      rcases hj : jparse (stripLine a) with _ | ev
      · simp [normalize_lines, ha, hd, hj, ih hok']
      · rcases he : extract_stream_delta ev with e | o
        · simp [lineOk, ha, hd, hj, he] at hoka
        · rcases o with _ | d
          · simp [normalize_lines, ha, hd, hj, he, ih hok']
          · simp [normalize_lines, ha, hd, hj, he, ih hok']

/-- Witness for C5's append law at concrete inputs. -/
theorem normalize_lines_wire_order_witness :
    (normalize_lines (["\x7b\"output_text\":\"a\"\x7d"] ++ ["not-json"])).1 =
      (normalize_lines ["\x7b\"output_text\":\"a\"\x7d"]).1 ++
        (normalize_lines ["not-json"]).1 :=
  normalize_lines_wire_order.2 ["\x7b\"output_text\":\"a\"\x7d"] ["not-json"]
    (by decide)

/-- Claim C8 counterexample: a nonempty whitespace-only line is NOT
discarded: it strips to the empty string, fails JSON decoding, and is
yielded as an (empty) pass-through fragment, so the fragment list is not
empty. -/
theorem blank_line_counterexample :
    (∀ c ∈ (" " : String).data, pyIsSpace c = true) ∧
    (normalize_lines [" "]).1 = [""] ∧ (normalize_lines [" "]).1 ≠ [] :=
  ⟨by decide, rfl, by decide⟩

/-- Claim C8 as amended: only the line that is literally empty is skipped
without a fragment; a nonempty all-whitespace line never terminates the
stream but is stripped to `""`, fails JSON decoding, and is passed through
as one empty-string fragment.  In both cases processing continues with the
remaining lines. -/
theorem blank_line_amended (raw : String) (rest : List String) :
    (raw = "" → normalize_lines (raw :: rest) = normalize_lines rest) ∧
    (raw ≠ "" → (∀ c ∈ raw.data, pyIsSpace c = true) →
      normalize_lines (raw :: rest) =
        ("" :: (normalize_lines rest).1, (normalize_lines rest).2)) := by
  constructor
  · intro h
    subst h
    exact normalize_lines_cons_empty rest
  · intro ha hsp
    obtain ⟨l⟩ := raw
    have hne : l ≠ [] := by
      intro h0
      subst h0
      exact ha rfl
    have hstart : pyStartsWith ⟨l⟩ "data:" = false := by
      rcases l with _ | ⟨c, cs⟩
      · exact absurd rfl hne
      · have hc : pyIsSpace c = true := hsp c (by simp)
        have hcd : ('d' == c) = false := by
          rw [beq_eq_false_iff_ne]
          intro h
          rw [← h] at hc
          exact absurd hc (by decide)
        simp [pyStartsWith, listStartsWith, hcd]
    have hstripL : pyStripL l = [] := by
      have h1 : l.dropWhile pyIsSpace = [] := by
        rw [List.dropWhile_eq_nil_iff]
        intro c hc
        exact hsp c hc
      simp [pyStripL, h1]
    have hstrip : stripLine ⟨l⟩ = "" := by
      simp [stripLine, hstart, pyStrip, hstripL]
    have hdone : stripLine ⟨l⟩ ≠ "[DONE]" := by
      rw [hstrip]; decide
    have hj : jparse (stripLine ⟨l⟩) = none := by
      rw [hstrip]; rfl
    simp only [normalize_lines, if_neg ha, if_neg hdone, hstrip]
    rfl

/-- Witness for C8's amended statement on a concrete space-only line. -/
theorem blank_line_amended_witness :
    normalize_lines [" ", "\x7b\"output_text\":\"z\"\x7d"] =
      ("" :: (normalize_lines ["\x7b\"output_text\":\"z\"\x7d"]).1,
       (normalize_lines ["\x7b\"output_text\":\"z\"\x7d"]).2) :=
  (blank_line_amended " " ["\x7b\"output_text\":\"z\"\x7d"]).2 (by decide) (by decide)

/-- Does the character list start with `/`? -/
def startsSlashL : List Char → Bool
  | c :: _ => c == '/'
  | [] => false

/-- Does the character list end with `/`? -/
def endsSlashL : List Char → Bool
  | [] => false
  | [c] => c == '/'
  | _ :: rest => endsSlashL rest

/-- Does the list contain two adjacent slashes? -/
def hasDS : List Char → Bool
  | [] => false
  | [_] => false
  | c :: c2 :: rest => (c == '/' && c2 == '/') || hasDS (c2 :: rest)

/-- Does the string contain the substring `//`? -/
def hasDoubleSlash (s : String) : Bool := hasDS s.data

theorem startsSlashL_cons_append (d : Char) (x y : List Char) :
    startsSlashL ((d :: x) ++ y) = startsSlashL (d :: x) := rfl

theorem endsSlashL_eq_startsSlashL_reverse (l : List Char) :
    endsSlashL l = startsSlashL l.reverse := by
  induction l with
  | nil => rfl
  | cons c r ih =>
    cases r with
    | nil => simp [endsSlashL, startsSlashL]
    | cons c2 r' =>
      have h1 : endsSlashL (c :: c2 :: r') = endsSlashL (c2 :: r') := rfl
      rw [h1, ih]
      rcases h : (c2 :: r').reverse with _ | ⟨d, x'⟩
      · exact absurd h (by simp)
      · rw [show (c :: c2 :: r').reverse = (c2 :: r').reverse ++ [c] by simp,
           h, startsSlashL_cons_append]

theorem startsSlashL_dropWhile_slash (x : List Char) :
    startsSlashL (x.dropWhile (· == '/')) = false := by
  induction x with
  | nil => rfl
  | cons c r ih =>
    by_cases h : (c == '/') = true
    · rw [List.dropWhile_cons_of_pos (by simpa using h)]
      exact ih
    · rw [List.dropWhile_cons_of_neg (by simpa using h)]
      simpa [startsSlashL] using h

theorem endpoint_root_not_endsSlash (base_url : Option String) :
    endsSlashL (endpoint_root base_url).data = false := by
  rw [endsSlashL_eq_startsSlashL_reverse]
  have h : ∀ s : String, endsSlashL (rstripSlashes s).data = false := by
    intro s
    rw [endsSlashL_eq_startsSlashL_reverse]
    show startsSlashL ((s.data.reverse.dropWhile (· == '/')).reverse).reverse = false
    rw [List.reverse_reverse]
    exact startsSlashL_dropWhile_slash _
  rw [← endsSlashL_eq_startsSlashL_reverse]
  rcases base_url with _ | s
  · exact h _
  · simp only [endpoint_root]
    exact h _

theorem hasDS_append (a b : List Char) :
    hasDS (a ++ b) =
      (hasDS a || (endsSlashL a && startsSlashL b) || hasDS b) := by
  induction a with
  | nil => simp [hasDS, endsSlashL]
  | cons c a' ih =>
    cases a' with
    | nil =>
      cases b with
      | nil => simp [hasDS, endsSlashL, startsSlashL]
      | cons d b' =>
        show hasDS (c :: d :: b') = _
        simp [hasDS, endsSlashL, startsSlashL]
    | cons c2 a'' =>
      show hasDS (c :: c2 :: (a'' ++ b)) = _
      have h1 : hasDS (c :: c2 :: (a'' ++ b)) =
          ((c == '/' && c2 == '/') || hasDS (c2 :: (a'' ++ b))) := rfl
      have h2 : hasDS (c :: c2 :: a'') =
          ((c == '/' && c2 == '/') || hasDS (c2 :: a'')) := rfl
      have h3 : endsSlashL (c :: c2 :: a'') = endsSlashL (c2 :: a'') := rfl
      rw [h1, h2, h3, show c2 :: (a'' ++ b) = (c2 :: a'') ++ b from rfl, ih]
      cases c == '/' && c2 == '/' <;> simp

theorem listStartsWith_self_append (p r : List Char) :
    listStartsWith p (p ++ r) = true := by
  induction p with
  | nil => rfl
  | cons c p' ih => simp [listStartsWith, ih]

/-- Claim C7 counterexample: the resolved URL for the default root already
contains a double slash (the `https://` scheme separator), so "the result
never contains a double slash" is false as stated. -/
theorem endpoint_for_double_slash_counterexample :
    hasDoubleSlash (endpoint_for "chat" none) = true := rfl

/-- Claim C7 as amended: the URL is the `rstrip("/")`-stripped root plus
the literal suffix `/chat/completions` exactly when the mode
case-insensitively equals `chat` and `/responses` for every other mode;
the stripped root never ends in a slash, and concatenation introduces no
double slash: the result contains `//` exactly where the stripped root
already does (e.g. the scheme separator). -/
theorem endpoint_for_amended (mode : String) (base_url : Option String) :
    (pyLower mode = "chat" →
      endpoint_for mode base_url = endpoint_root base_url ++ "/chat/completions" ∧
      pyEndsWith (endpoint_for mode base_url) "/chat/completions" = true) ∧
    (pyLower mode ≠ "chat" →
      endpoint_for mode base_url = endpoint_root base_url ++ "/responses" ∧
      pyEndsWith (endpoint_for mode base_url) "/responses" = true) ∧
    endsSlashL (endpoint_root base_url).data = false ∧
    hasDoubleSlash (endpoint_for mode base_url) =
      hasDoubleSlash (endpoint_root base_url) := by
  have hroot := endpoint_root_not_endsSlash base_url
  have hends : ∀ t : String, pyEndsWith (endpoint_root base_url ++ t) t = true := by
    intro t
    show listStartsWith t.data.reverse
        ((endpoint_root base_url ++ t).data.reverse) = true
    rw [String.data_append, List.reverse_append]
    exact listStartsWith_self_append _ _
  refine ⟨?_, ?_, hroot, ?_⟩
  · intro h
    refine ⟨by simp [endpoint_for, h], ?_⟩
    simp only [endpoint_for, if_pos h]
    exact hends _
  · intro h
    refine ⟨by simp [endpoint_for, h], ?_⟩
    simp only [endpoint_for, if_neg h]
    exact hends _
  · by_cases h : pyLower mode = "chat" <;>
      simp only [endpoint_for, hasDoubleSlash, if_pos, if_neg, h, if_true,
        if_false, ite_true, ite_false, String.data_append] <;>
      rw [hasDS_append] <;>
      simp [hroot, hasDS]

/-- Witness for C7's amended statement: both mode branches at concrete
inputs, with the case-insensitive match and a trailing-slash override. -/
theorem endpoint_for_amended_witness :
    endpoint_for "CHAT" (some "http://x//") =
      endpoint_root (some "http://x//") ++ "/chat/completions" ∧
    endpoint_for "weird" none = endpoint_root none ++ "/responses" :=
  ⟨((endpoint_for_amended "CHAT" (some "http://x//")).1 (by decide)).1,
   ((endpoint_for_amended "weird" none).2.1 (by decide)).1⟩

/-! ### Round trip of `_toml_escape` through the TOML basic-string reader -/

theorem hexDigitVal_hexDigitUpper : ∀ d : Nat, d < 16 →
    hexDigitVal (hexDigitUpper d) = some d := by decide

theorem hex4_hex4Upper (n : Nat) (h : n < 0x10000) :
    hex4 (hexDigitUpper (n / 4096 % 16)) (hexDigitUpper (n / 256 % 16))
      (hexDigitUpper (n / 16 % 16)) (hexDigitUpper (n % 16)) = some n := by
  rw [hex4]
  rw [hexDigitVal_hexDigitUpper _ (Nat.mod_lt _ (by decide)),
      hexDigitVal_hexDigitUpper _ (Nat.mod_lt _ (by decide)),
      hexDigitVal_hexDigitUpper _ (Nat.mod_lt _ (by decide)),
      hexDigitVal_hexDigitUpper _ (Nat.mod_lt _ (by decide))]
  show some _ = some n
  congr 1
  omega

theorem tomlBasicBody_escape_char (c : Char) (hc : c.toNat ≠ 0x7F)
    (tail : List Char) :
    tomlBasicBody (toml_escape_char c ++ tail) =
      (tomlBasicBody tail).map fun p => (c :: p.1, p.2) := by
  by_cases h1 : c = '"'
  · subst h1; rw [show toml_escape_char '"' ++ tail = '\\' :: '"' :: tail from rfl,
      tomlBasicBody.eq_def]; simp [tomlEscChar]
  by_cases h2 : c = '\\'
  · subst h2; rw [show toml_escape_char '\\' ++ tail = '\\' :: '\\' :: tail from rfl,
      tomlBasicBody.eq_def]; simp [tomlEscChar]
  by_cases h3 : c = Char.ofNat 8
  · subst h3; rw [show toml_escape_char (Char.ofNat 8) ++ tail = '\\' :: 'b' :: tail from rfl,
      tomlBasicBody.eq_def]; simp [tomlEscChar]
  by_cases h4 : c = '\t'
  · subst h4; rw [show toml_escape_char '\t' ++ tail = '\\' :: 't' :: tail from rfl,
      tomlBasicBody.eq_def]; simp [tomlEscChar]
  by_cases h5 : c = '\n'
  · subst h5; rw [show toml_escape_char '\n' ++ tail = '\\' :: 'n' :: tail from rfl,
      tomlBasicBody.eq_def]; simp [tomlEscChar]
  by_cases h6 : c = Char.ofNat 12
  · subst h6; rw [show toml_escape_char (Char.ofNat 12) ++ tail = '\\' :: 'f' :: tail from rfl,
      tomlBasicBody.eq_def]; simp [tomlEscChar]
  by_cases h7 : c = '\r'
  · subst h7; rw [show toml_escape_char '\r' ++ tail = '\\' :: 'r' :: tail from rfl,
      tomlBasicBody.eq_def]; simp [tomlEscChar]
  by_cases h8 : c.toNat < 0x20
  · have hesc : toml_escape_char c = '\\' :: 'u' :: hex4Upper c.toNat := by
      simp [toml_escape_char, h1, h2, h3, h4, h5, h6, h7, h8]
    rw [hesc, hex4Upper]
    show tomlBasicBody ('\\' :: 'u' :: _ :: _ :: _ :: _ :: tail) = _
    simp only [tomlBasicBody, if_true]
    rw [hex4_hex4Upper c.toNat (by omega)]
    have hd : decide (55296 ≤ c.toNat) = false := by
      simp only [decide_eq_false_iff_not]
      omega
    simp [hd, Char.ofNat_toNat]
    intro hx hy
    exact absurd hx (by omega)
  · have hesc : toml_escape_char c = [c] := by
      simp [toml_escape_char, h1, h2, h3, h4, h5, h6, h7, h8]
    rw [hesc]
    show tomlBasicBody (c :: tail) = _
    have hok : tomlBasicOk c = true := by
      unfold tomlBasicOk
      have h : (decide (0x20 ≤ c.toNat) && decide (c.toNat ≤ 0x7E)) = true ∨
          (decide (0x80 ≤ c.toNat)) = true := by
        simp only [Bool.and_eq_true, decide_eq_true_eq]
        omega
      rcases h with h | h <;> simp [h]
    rw [tomlBasicBody.eq_def]
    simp only [if_neg h1, if_neg h2, if_pos hok]

theorem tomlBasicBody_escape_list (v : List Char)
    (hv : ∀ c ∈ v, c.toNat ≠ 0x7F) (rest : List Char) :
    tomlBasicBody ((v.map toml_escape_char).flatten ++ '"' :: rest) =
      some (v, rest) := by
  induction v with
  | nil =>
    rw [show (List.map toml_escape_char []).flatten ++ '"' :: rest = '"' :: rest from rfl,
      tomlBasicBody.eq_def]
    simp
  | cons c v' ih =>
    rw [List.map_cons, List.flatten_cons, List.append_assoc]
    rw [tomlBasicBody_escape_char c (hv c (by simp)) _]
    rw [ih fun x hx => hv x (by simp [hx])]
    rfl

theorem hexDigitUpper_ne_nl : ∀ d : Nat, d < 16 → hexDigitUpper d ≠ '\n' := by
  decide

theorem toml_escape_char_no_nl (c : Char) :
    ∀ x ∈ toml_escape_char c, x ≠ '\n' := by
  intro x hx
  unfold toml_escape_char at hx
  split_ifs at hx with h1 h2 h3 h4 h5 h6 h7 h8
  · simp at hx; rcases hx with rfl | rfl <;> decide
  · simp at hx; subst hx; decide
  · simp at hx; rcases hx with rfl | rfl <;> decide
  · simp at hx; rcases hx with rfl | rfl <;> decide
  · simp at hx
    rcases hx with rfl | rfl
    · decide
    · subst h5
      intro h0
      exact absurd h0 (by decide)
  · simp at hx; rcases hx with rfl | rfl <;> decide
  · simp at hx; rcases hx with rfl | rfl <;> decide
  · simp only [hex4Upper, List.mem_cons, List.mem_singleton] at hx
    rcases hx with rfl | rfl | rfl | rfl | rfl | hx
    · decide
    · decide
    · exact hexDigitUpper_ne_nl _ (Nat.mod_lt _ (by decide))
    · exact hexDigitUpper_ne_nl _ (Nat.mod_lt _ (by decide))
    · exact hexDigitUpper_ne_nl _ (Nat.mod_lt _ (by decide))
    · rcases hx with rfl | hx
      · exact hexDigitUpper_ne_nl _ (Nat.mod_lt _ (by decide))
      · simp at hx
  · simp at hx
    subst hx
    intro h0
    subst h0
    exact h8 (by decide)

theorem splitNl_ne_nil (l : List Char) : splitNl l ≠ [] := by
  cases l with
  | nil => simp [splitNl]
  | cons c r =>
    simp only [splitNl]
    rcases h : splitNl r with _ | ⟨l0, ls⟩
    · simp
    · by_cases hc : c = '\n' <;> simp [hc]

theorem splitNl_append_line (l rest : List Char) (h : ∀ x ∈ l, x ≠ '\n') :
    splitNl (l ++ '\n' :: rest) = l :: splitNl rest := by
  induction l with
  | nil =>
    rcases hsp : splitNl rest with _ | ⟨l0, ls⟩
    · exact absurd hsp (splitNl_ne_nil rest)
    · simp [splitNl, hsp]
  | cons c l' ih =>
    have hc : c ≠ '\n' := h c (by simp)
    rw [List.cons_append]
    have ih' := ih fun x hx => h x (by simp [hx])
    simp [splitNl, ih', hc]

theorem tomlLineAux_key_consume (ks : List Char) (acc rest : List Char)
    (hk : ∀ c ∈ ks, tomlKeyChar c = true ∧ c ≠ ' ') :
    tomlLineAux acc (ks ++ ' ' :: rest) =
      tomlLineAux (ks.reverse ++ acc) (' ' :: rest) := by
  induction ks generalizing acc with
  | nil => simp
  | cons c ks' ih =>
    obtain ⟨hkc, hcs⟩ := hk c (by simp)
    rw [List.cons_append, tomlLineAux.eq_def]
    simp only [if_neg hcs, if_pos hkc]
    rw [ih (c :: acc) fun x hx => hk x (by simp [hx])]
    simp

/-- Keys acceptable to the line parser: non-empty, all bare-key characters,
no spaces. -/
def keyOk (k : String) : Prop :=
  k.data ≠ [] ∧ ∀ c ∈ k.data, tomlKeyChar c = true ∧ c ≠ ' '

theorem tomlLine_roundtrip (key v : String) (hkey : keyOk key)
    (hv : ∀ c ∈ v.data, c.toNat ≠ 0x7F) :
    tomlLineAux []
      (key.data ++ ' ' :: '=' :: ' ' :: '"' ::
        ((toml_escape v).data ++ ['"'])) = some (key, v) := by
  rw [tomlLineAux_key_consume key.data [] _ hkey.2]
  rw [tomlLineAux.eq_def]
  simp only [if_pos rfl]
  have hbody : tomlBasicBody ((toml_escape v).data ++ ['"']) =
      some (v.data, []) := by
    have := tomlBasicBody_escape_list v.data hv []
    simpa [toml_escape] using this
  rw [hbody]
  have hne : (key.data.reverse ++ []).isEmpty = false := by
    simp [List.isEmpty_iff, hkey.1]
  simp only [hne]
  simp [List.append_nil]

theorem tomlKeyChar_ne_nl {c : Char} (h : tomlKeyChar c = true) : c ≠ '\n' := by
  intro h0
  subst h0
  exact absurd h (by decide)

theorem dump_line_no_nl (k v : String) (hk : keyOk k) :
    ∀ x ∈ k.data ++ ' ' :: '=' :: ' ' :: '"' ::
        ((toml_escape v).data ++ ['"']), x ≠ '\n' := by
  intro x hx
  rcases List.mem_append.mp hx with h | h
  · exact tomlKeyChar_ne_nl (hk.2 x h).1
  · simp only [List.mem_cons] at h
    rcases h with rfl | rfl | rfl | rfl | h
    · decide
    · decide
    · decide
    · decide
    · rcases List.mem_append.mp h with h | h
      · simp only [toml_escape, List.mem_flatten] at h
        obtain ⟨l, hl, hxl⟩ := h
        obtain ⟨c, _, rfl⟩ := List.mem_map.mp hl
        exact toml_escape_char_no_nl c x hxl
      · simp at h
        subst h
        decide

theorem tomlParseDoc_dump (ps : List (String × String))
    (hk : ∀ p ∈ ps, keyOk p.1)
    (hv : ∀ p ∈ ps, ∀ c ∈ p.2.data, c.toNat ≠ 0x7F) :
    tomlParseDoc (dumpPairs ps) = some ps := by
  induction ps with
  | nil => rfl
  | cons p ps' ih =>
    obtain ⟨k, v⟩ := p
    have hkp : keyOk k := hk (k, v) (by simp)
    have hvp : ∀ c ∈ v.data, c.toNat ≠ 0x7F := hv (k, v) (by simp)
    have hline : dumpPairs ((k, v) :: ps') =
        (k.data ++ ' ' :: '=' :: ' ' :: '"' ::
          ((toml_escape v).data ++ ['"'])) ++ '\n' :: dumpPairs ps' := by
      simp [dumpPairs, dump_line, List.append_assoc]
    rw [tomlParseDoc, hline]
    rw [splitNl_append_line _ _ (dump_line_no_nl k v hkp)]
    have hcontent_ne : (k.data ++ ' ' :: '=' :: ' ' :: '"' ::
        ((toml_escape v).data ++ ['"'])).isEmpty = false := by
      rcases k.data with _ | ⟨c, cs⟩ <;> simp
    rw [List.filter_cons]
    simp only [hcontent_ne, Bool.not_false, if_pos]
    rw [List.mapM_cons]
    rw [tomlLine_roundtrip k v hkp hvp]
    have ih' := ih (fun p hp => hk p (by simp [hp]))
      (fun p hp => hv p (by simp [hp]))
    rw [tomlParseDoc] at ih'
    rw [ih']
    rfl

/-- The amended domain for one Config field: absent, or a string with at
least one non-whitespace character and no `U+007F` (DEL) character. -/
def fieldOk : Option String → Bool
  | none => true
  | some v => v.data.any (fun c => !pyIsSpace c) &&
      v.data.all (fun c => c.toNat != 0x7F)

theorem kvFind_config_pairs (cfg : Config) :
    kvFind (config_pairs cfg) "api_key" = cfg.api_key ∧
    kvFind (config_pairs cfg) "base_url" = cfg.base_url ∧
    kvFind (config_pairs cfg) "default_model" = cfg.default_model ∧
    kvFind (config_pairs cfg) "default_mode" = cfg.default_mode := by
  obtain ⟨a, b, c, d⟩ := cfg
  cases a <;> cases b <;> cases c <;> cases d <;>
    simp [config_pairs, kvFind]

theorem pyStripL_ne_nil (l : List Char) (h : ∃ c ∈ l, pyIsSpace c = false) :
    pyStripL l ≠ [] := by
  intro h0
  obtain ⟨c, hc, hcs⟩ := h
  unfold pyStripL at h0
  rw [List.reverse_eq_nil_iff, List.dropWhile_eq_nil_iff] at h0
  have hall : ∀ x ∈ l.dropWhile pyIsSpace, pyIsSpace x = true := by
    intro x hx
    exact h0 x (by simp [hx])
  have hl : ∀ x ∈ l, pyIsSpace x = true := by
    intro x hx
    have hx' : x ∈ l.takeWhile pyIsSpace ++ l.dropWhile pyIsSpace := by
      rw [List.takeWhile_append_dropWhile]
      exact hx
    rcases List.mem_append.mp hx' with h | h
    · exact List.mem_takeWhile_imp h
    · exact hall x h
  rw [hl c hc] at hcs
  exact absurd hcs (by simp)

theorem load_get_str_of_kvFind (kvs : List (String × String)) (key : String)
    (f : Option String) (hf : kvFind kvs key = f) (hok : fieldOk f = true) :
    load_get_str kvs key = f := by
  cases f with
  | none => simp [load_get_str, hf]
  | some v =>
    have hne : pyStripL v.data ≠ [] := by
      apply pyStripL_ne_nil
      have h1 : v.data.any (fun c => !pyIsSpace c) = true := by
        simp only [fieldOk, Bool.and_eq_true] at hok
        exact hok.1
      obtain ⟨c, hc, hcs⟩ := List.any_eq_true.mp h1
      exact ⟨c, hc, by simpa using hcs⟩
    simp [load_get_str, hf, pyStrip, List.isEmpty_iff, hne]

theorem config_pairs_mem (cfg : Config) :
    ∀ p ∈ config_pairs cfg,
      (p.1 = "api_key" ∧ cfg.api_key = some p.2) ∨
      (p.1 = "base_url" ∧ cfg.base_url = some p.2) ∨
      (p.1 = "default_model" ∧ cfg.default_model = some p.2) ∨
      (p.1 = "default_mode" ∧ cfg.default_mode = some p.2) := by
  intro p hp
  unfold config_pairs at hp
  rcases List.mem_append.mp hp with h123 | h
  rcases List.mem_append.mp h123 with h12 | h
  rcases List.mem_append.mp h12 with h | h
  · left
    rcases ha : cfg.api_key with _ | v <;> rw [ha] at h <;> simp at h
    subst h
    exact ⟨rfl, rfl⟩
  · right; left
    rcases ha : cfg.base_url with _ | v <;> rw [ha] at h <;> simp at h
    subst h
    exact ⟨rfl, rfl⟩
  · right; right; left
    rcases ha : cfg.default_model with _ | v <;> rw [ha] at h <;> simp at h
    subst h
    exact ⟨rfl, rfl⟩
  · right; right; right
    rcases ha : cfg.default_mode with _ | v <;> rw [ha] at h <;> simp at h
    subst h
    exact ⟨rfl, rfl⟩

theorem config_pairs_keyOk (cfg : Config) :
    ∀ p ∈ config_pairs cfg, keyOk p.1 := by
  intro p hp
  rcases config_pairs_mem cfg p hp with ⟨h, _⟩ | ⟨h, _⟩ | ⟨h, _⟩ | ⟨h, _⟩ <;>
    rw [h] <;> constructor <;> decide

theorem config_pairs_no_del (cfg : Config)
    (h1 : fieldOk cfg.api_key = true) (h2 : fieldOk cfg.base_url = true)
    (h3 : fieldOk cfg.default_model = true)
    (h4 : fieldOk cfg.default_mode = true) :
    ∀ p ∈ config_pairs cfg, ∀ c ∈ p.2.data, c.toNat ≠ 0x7F := by
  have hfield : ∀ v : String, fieldOk (some v) = true →
      ∀ c ∈ v.data, c.toNat ≠ 0x7F := by
    intro v hv c hc
    simp only [fieldOk, Bool.and_eq_true, List.all_eq_true] at hv
    have := hv.2 c hc
    simpa using this
  intro p hp
  rcases config_pairs_mem cfg p hp with ⟨_, h⟩ | ⟨_, h⟩ | ⟨_, h⟩ | ⟨_, h⟩
  · exact hfield p.2 (h ▸ h1)
  · exact hfield p.2 (h ▸ h2)
  · exact hfield p.2 (h ▸ h3)
  · exact hfield p.2 (h ▸ h4)

/-- Claim C10 counterexample: the one-character string `U+007F` (DEL) meets
the claim's precondition (it is not whitespace) but `_toml_escape` leaves
it unescaped, TOML rejects it, and `load_config` falls back to the default
config: the round trip loses the field. -/
theorem config_roundtrip_counterexample :
    (∃ c ∈ ("\x7F" : String).data, pyIsSpace c = false) ∧
    save_then_load ⟨some "\x7F", none, none, none⟩ =
      ⟨none, none, none, none⟩ ∧
    save_then_load ⟨some "\x7F", none, none, none⟩ ≠
      ⟨some "\x7F", none, none, none⟩ :=
  ⟨⟨'\x7F', by decide, by decide⟩, by decide, by decide⟩

/-- Claim C10 as amended: for every `Config` whose fields are each `None`
or a string with at least one non-whitespace character and no `U+007F`
character, `save_config` followed by `load_config` reproduces the `Config`
exactly: the writer's escaping of quotes, backslashes and control
characters below `0x20` round-trips through TOML parsing and no field is
gained or lost. -/
theorem config_roundtrip_amended (cfg : Config)
    (h1 : fieldOk cfg.api_key = true) (h2 : fieldOk cfg.base_url = true)
    (h3 : fieldOk cfg.default_model = true)
    (h4 : fieldOk cfg.default_mode = true) :
    save_then_load cfg = cfg := by
  obtain ⟨hk1, hk2, hk3, hk4⟩ := kvFind_config_pairs cfg
  unfold save_then_load load_config_from save_config_text
  rw [show (⟨dumpPairs (config_pairs cfg)⟩ : String).data =
      dumpPairs (config_pairs cfg) from rfl]
  rw [tomlParseDoc_dump (config_pairs cfg) (config_pairs_keyOk cfg)
      (config_pairs_no_del cfg h1 h2 h3 h4)]
  change Config.mk (load_get_str (config_pairs cfg) "api_key")
      (load_get_str (config_pairs cfg) "base_url")
      (load_get_str (config_pairs cfg) "default_model")
      (load_get_str (config_pairs cfg) "default_mode") = cfg
  rw [load_get_str_of_kvFind _ _ _ hk1 h1,
      load_get_str_of_kvFind _ _ _ hk2 h2,
      load_get_str_of_kvFind _ _ _ hk3 h3,
      load_get_str_of_kvFind _ _ _ hk4 h4]

/-- Witness for C10's amended statement: a config with three present
fields, one containing quotes and backslashes, survives the round trip. -/
theorem config_roundtrip_amended_witness :
    save_then_load ⟨some "sk-\"weird\"\\path", some "https://example.com/v1",
        none, some "chat"⟩ =
      ⟨some "sk-\"weird\"\\path", some "https://example.com/v1",
        none, some "chat"⟩ :=
  config_roundtrip_amended _ (by decide) (by decide) (by decide) (by decide)
